import Mathlib

/-!
Verification of the buildcache wrapper pipeline.

Shallow embedding of the code in src/wrappers/program_wrapper.cpp and
src/gcc_wrapper.cpp.  External collaborators that are not part of the
sources (the hasher primitive, the cache store, the data store, the
configuration view) are modelled from the specification, as marked on
each definition.
-/

/-- Exception values flowing through the pipeline.  C++ distinguishes
`std::runtime_error` (caught by the inner direct-mode catch), other
`std::exception` values (typed, caught only at the outer boundary), and
non-standard exceptions (caught by the outer `catch (...)`). -/
inductive err_t
  | runtimeErr (msg : String)
  | stdErr (msg : String)
  | unknownErr
deriving DecidableEq

/-- True for errors caught by `catch (const std::runtime_error&)`. -/
def err_t.isRuntime : err_t → Bool
  | .runtimeErr _ => true
  | _ => false

/-- True for errors caught by `catch (std::exception&)`. -/
def err_t.isTyped : err_t → Bool
  | .unknownErr => false
  | _ => true

/-- Log levels of base/debug_utils. -/
inductive log_level_t
  | DEBUG
  | INFO
  | ERROR
deriving DecidableEq

/-- Level used by the two catch clauses at the outer boundary of
`program_wrapper_t::handle_command`: DEBUG for `std::exception`,
ERROR for the catch-all. -/
def boundaryLogLevel : err_t → log_level_t
  | .unknownErr => .ERROR
  | _ => .DEBUG

/-- Modelled from the spec: base/hasher.hpp is not under src/.  The hasher
absorbs a framed byte stream; the separator injected by
`inject_separator()` is "a byte pattern that cannot appear in any of the
inputs", which we model as a byte constructor distinct from all raw
input bytes. -/
inductive hbyte_t
  | raw (c : Char)
  | sepByte
deriving DecidableEq

/-- Modelled from the spec: a digest.  The spec's hasher invariant says two
digests are equal iff the framed absorb streams are equal, so the digest is
modelled as the framed stream itself. -/
abbrev digest_t := List hbyte_t

/-- Raw bytes of one string absorbed by `update(bytes)`. -/
def encodeStr (s : String) : List hbyte_t := s.data.map hbyte_t.raw

/-- Modelled from the spec: `update(seq)` framing, "equivalent to absorbing
each element followed by a separator". -/
def encodeList : List String → List hbyte_t
  | [] => []
  | s :: rest => encodeStr s ++ (hbyte_t.sepByte :: encodeList rest)

/-- Modelled from the spec: the streaming state of hasher_t is the framed
byte stream absorbed so far (value-level copy gives `clone()`). -/
structure hasher_t where
  bytes : List hbyte_t
deriving DecidableEq

/-- A freshly constructed `hasher_t hasher;`. -/
def hasher_t.empty : hasher_t := ⟨[]⟩

/-- `update` with a single string. -/
def hasher_t.update (h : hasher_t) (s : String) : hasher_t :=
  ⟨h.bytes ++ encodeStr s⟩

/-- `update` with a string list. -/
def hasher_t.updateList (h : hasher_t) (l : List String) : hasher_t :=
  ⟨h.bytes ++ encodeList l⟩

/-- `update_from_file`, applied to the contents read from the file (the
read itself, which can fail, is performed by the caller in this model). -/
def hasher_t.updateFromFileContents (h : hasher_t) (contents : String) : hasher_t :=
  ⟨h.bytes ++ encodeStr contents⟩

/-- `inject_separator()`. -/
def hasher_t.injectSeparator (h : hasher_t) : hasher_t :=
  ⟨h.bytes ++ [hbyte_t.sepByte]⟩

/-- `final()`. -/
def hasher_t.final (h : hasher_t) : digest_t := h.bytes

/-- Insert one key/value pair into a key-ordered association list. -/
def insertKV (p : String × String) : List (String × String) → List (String × String)
  | [] => [p]
  | q :: rest => if q.1 < p.1 then q :: insertKV p rest else p :: q :: rest

/-- Sort an association list by key; models the sorted iteration order of
the `std::map` returned by `get_relevant_env_vars()`. -/
def sortKV : List (String × String) → List (String × String)
  | [] => []
  | p :: rest => insertKV p (sortKV rest)

/-- Modelled from the spec: the env-var map is hashed "framed as an ordered
sequence of key=value strings, sorted by key". -/
def frameEnvVars (m : List (String × String)) : List String :=
  (sortKV m).map (fun p => p.1 ++ "=" ++ p.2)

/-- `update` with the environment-variable map. -/
def hasher_t.updateEnvMap (h : hasher_t) (m : List (String × String)) : hasher_t :=
  h.updateList (frameEnvVars m)

/-- Modelled from the spec: the read-only configuration view (config::*). -/
structure config_t where
  direct_mode : Bool := false
  hard_links : Bool := false
  compress : Bool := false
  read_only : Bool := false
  terminate_on_miss : Bool := false
  hash_extra_files : List String := []
deriving DecidableEq

/-- An expected (build target) file: target path plus required flag. -/
structure expected_file_t where
  path : String
  required : Bool
deriving DecidableEq

/-- sys::run_result_t. -/
structure run_result_t where
  return_code : Int
  std_out : String
  std_err : String
deriving DecidableEq

/-- cache_entry_t::comp_mode_t. -/
inductive comp_mode_t
  | NONE
  | ALL
deriving DecidableEq

/-- cache_entry_t (file IDs, compression mode, captured streams, exit code). -/
structure cache_entry_t where
  file_ids : List String
  compression : comp_mode_t
  std_out : String
  std_err : String
  return_code : Int
deriving DecidableEq

/-- program_wrapper_t::capabilities_t: the flags consumed by the
pipeline (m_create_target_dirs, m_direct_mode, m_hard_links). -/
structure capabilities_t where
  create_target_dirs : Bool := false
  direct_mode : Bool := false
  hard_links : Bool := false
deriving DecidableEq

/-- One iteration of the capability loop in the capabilities_t constructor
(program_wrapper.cpp lines 41-57), threading the accumulated flags. -/
def capStep (cfg : config_t) (c : capabilities_t) (s : String) : capabilities_t :=
  if s = "create_target_dirs" then { c with create_target_dirs := true }
  else if c.direct_mode = false ∧ s = "direct_mode" then
    { c with direct_mode := cfg.direct_mode }
  else if s = "force_direct_mode" then { c with direct_mode := true }
  else if s = "hard_links" then { c with hard_links := cfg.hard_links }
  else c

/-- The loop of the capabilities_t constructor. -/
def capLoop (cfg : config_t) : List String → capabilities_t → capabilities_t
  | [], c => c
  | s :: rest, c => capLoop cfg rest (capStep cfg c s)

/-- capabilities_t::capabilities_t(cap_strings): capability options are
opt-in (false by default) and masked by the configuration. -/
def capabilities_t.make (cfg : config_t) (cap_strings : List String) : capabilities_t :=
  capLoop cfg cap_strings {}

/-- Externally visible calls made by one run of handle_command into the
cache store: whether run_for_miss completed, the add call (digest, entry,
and whether the spec-modelled ingestion stored it), and the add_direct
calls (direct digest, preprocessor digest, implicit input files). -/
structure effects_t where
  ran_for_miss : Bool := false
  add_call : Option (digest_t × cache_entry_t × Bool) := none
  add_direct_calls : List (digest_t × digest_t × List String) := []
deriving DecidableEq

/-- The observable outcome of handle_command: the returned bool, the
return_code out-parameter, the cache-store calls, and the log line emitted
by the outer catch clauses (none on a normal return). -/
structure hc_result_t where
  handled : Bool
  return_code : Int
  effects : effects_t := {}
  boundary_log : Option log_level_t := none
deriving DecidableEq

/-- The environment of one invocation: configuration plus the outcome of
every external call the pipeline makes (virtual wrapper hooks, file
system, cache store).  Fallible calls are Except-valued. -/
structure env_t where
  cfg : config_t
  resolve_args : Except err_t (List String)
  get_capabilities : Except err_t (List String)
  get_build_files : Except err_t (List (String × expected_file_t))
  file_read : String → Except err_t String
  get_program_id_cached_result : Except err_t String
  get_relevant_arguments : Except err_t (List String)
  get_relevant_env_vars : Except err_t (List (String × String))
  get_input_files : Except err_t (List String)
  resolve_path : String → String
  lookup_direct : digest_t → Except err_t (Option Int)
  preprocess_source : Except err_t String
  lookup : digest_t → Except err_t (Option Int)
  run_for_miss : Except err_t run_result_t
  file_exists : String → Bool
  get_implicit_input_files : List String

/-- The HASH_EXTRA_FILES loop: for each configured extra file,
`hasher.update_from_file(extra_file)`; a failed read raises. -/
def hash_extra_files_loop (env : env_t) : List String → hasher_t → Except err_t hasher_t
  | [], h => .ok h
  | f :: fs, h =>
    match env.file_read f with
    | .error e => .error e
    | .ok contents => hash_extra_files_loop env fs (h.updateFromFileContents contents)

/-- Step 4 of the pipeline: the base hasher H after absorbing the extra
files, the cached program id, the relevant arguments and the relevant
environment variables, in that order (program_wrapper.cpp lines 84-102). -/
def base_hasher (env : env_t) : Except err_t hasher_t :=
  match hash_extra_files_loop env env.cfg.hash_extra_files hasher_t.empty with
  | .error e => .error e
  | .ok h1 =>
    match env.get_program_id_cached_result with
    | .error e => .error e
    | .ok pid =>
      match env.get_relevant_arguments with
      | .error e => .error e
      | .ok ra =>
        match env.get_relevant_env_vars with
        | .error e => .error e
        | .ok ev => .ok (((h1.update pid).updateList ra).updateEnvMap ev)

/-- The HASH_INPUT_FILES loop: for each input file, hash its resolved
path, a separator, then the file contents (the read can raise). -/
def hash_input_files_loop (env : env_t) : List String → hasher_t → Except err_t hasher_t
  | [], h => .ok h
  | f :: fs, h =>
    let h1 := (h.update (env.resolve_path f)).injectSeparator
    match env.file_read f with
    | .error e => .error e
    | .ok contents => hash_input_files_loop env fs (h1.updateFromFileContents contents)

/-- The preprocessor-mode hash of step 6: `hasher.update(preprocess_source());
hasher.final()` applied to the base hasher. -/
def pp_digest (h : hasher_t) (pp : String) : digest_t := (h.update pp).final

/-- Result of the direct-mode block (program_wrapper.cpp lines 104-152):
a direct cache hit with a restored return code, or fall-through to
preprocessor mode carrying the value of the local variable `direct_hash`
(none models the empty string) and whether the inner catch logged, or an
exception escaping the inner try (only `std::runtime_error` is caught
there). -/
inductive direct_outcome_t
  | hit (rc : Int)
  | miss (direct_hash : Option digest_t) (loggedCatch : Bool)
  | err (e : err_t)
deriving DecidableEq

/-- The direct-mode block.  Mirrors the source: guarded by the direct_mode
capability; skipped for an empty input list; the direct hasher is a copy
of the base hasher with an injected separator, then the complete resolved
argument list, then the input files; `direct_hash` is assigned only after
the input-file loop finished; the inner catch catches only
`std::runtime_error`. -/
def direct_mode_attempt (env : env_t) (margs : List String) (caps : capabilities_t)
    (h : hasher_t) : direct_outcome_t :=
  if caps.direct_mode then
    match env.get_input_files with
    | .error e => if e.isRuntime then .miss none true else .err e
    | .ok input_files =>
      if 0 < input_files.length then
        let dm0 := (h.injectSeparator).updateList margs
        match hash_input_files_loop env input_files dm0 with
        | .error e => if e.isRuntime then .miss none true else .err e
        | .ok dm_hasher =>
          let direct_hash := dm_hasher.final
          match env.lookup_direct direct_hash with
          | .error e => if e.isRuntime then .miss (some direct_hash) true else .err e
          | .ok (some rc) => .hit rc
          | .ok none => .miss (some direct_hash) false
      else .miss none false
  else .miss none false

/-- The `if (!direct_hash.empty()) m_cache.add_direct(direct_hash, hash, ...)`
calls, as a list of performed calls. -/
def add_direct_list : Option digest_t → digest_t → List String →
    List (digest_t × digest_t × List String)
  | some d, ph, imp => [(d, ph, imp)]
  | none, _, _ => []

/-- Modelled from the spec: the ingestion outcome of cache_t::add (the
cache store is not under src/).  "Inserts the entry and ingests each
required file (or present optional file)"; "Required files that are
missing after a tool run abort cache insertion"; failures are logged, not
fatal.  True iff every required expected file exists. -/
def cache_add_stores (env : env_t) (expected : List (String × expected_file_t)) : Bool :=
  expected.all (fun f => !f.2.required || env.file_exists f.2.path)

/-- The cache_entry_t built on the insertion path (program_wrapper.cpp
lines 211-216). -/
def make_cache_entry (cfg : config_t) (file_ids : List String) (r : run_result_t) :
    cache_entry_t :=
  { file_ids := file_ids,
    compression := if cfg.compress then comp_mode_t.ALL else comp_mode_t.NONE,
    std_out := r.std_out,
    std_err := r.std_err,
    return_code := r.return_code }

/-- The file-ID list of step 10: a role id is kept iff the file is
required or exists on disk. -/
def build_file_ids (env : env_t) (expected : List (String × expected_file_t)) :
    List String :=
  (expected.filter (fun f => f.2.required || env.file_exists f.2.path)).map (fun f => f.1)

/-- The body of the try block of program_wrapper_t::handle_command
(program_wrapper.cpp lines 66-229), with exceptions propagating as
Except errors. -/
def handle_command_body (env : env_t) : Except err_t hc_result_t :=
  match env.resolve_args with
  | .error e => .error e
  | .ok margs =>
    match env.get_capabilities with
    | .error e => .error e
    | .ok cap_strings =>
      let caps := capabilities_t.make env.cfg cap_strings
      match env.get_build_files with
      | .error e => .error e
      | .ok expected =>
        match base_hasher env with
        | .error e => .error e
        | .ok h =>
          match direct_mode_attempt env margs caps h with
          | .err e => .error e
          | .hit rc => .ok { handled := true, return_code := rc }
          | .miss direct_hash _ =>
            match env.preprocess_source with
            | .error e => .error e
            | .ok pp =>
              let hash := pp_digest h pp
              match env.lookup hash with
              | .error e => .error e
              | .ok (some rc) =>
                .ok { handled := true, return_code := rc,
                      effects := { add_direct_calls :=
                        add_direct_list direct_hash hash env.get_implicit_input_files } }
              | .ok none =>
                if env.cfg.terminate_on_miss then
                  .ok { handled := true, return_code := 1 }
                else
                  match env.run_for_miss with
                  | .error e => .error e
                  | .ok result =>
                    let file_ids := build_file_ids env expected
                    let effects :=
                      if result.return_code == 0 && !env.cfg.read_only then
                        { ran_for_miss := true,
                          add_call := some (hash,
                            make_cache_entry env.cfg file_ids result,
                            cache_add_stores env expected),
                          add_direct_calls :=
                            add_direct_list direct_hash hash env.get_implicit_input_files }
                      else { ran_for_miss := true : effects_t }
                    .ok { handled := true, return_code := result.return_code,
                          effects := effects }

/-- program_wrapper_t::handle_command: the try body wrapped by the outer
catch clauses, which log (DEBUG for std::exception, ERROR for unknown)
and return false.  Totality of this function models that no exception
propagates out of handle_command. -/
def handle_command (env : env_t) : hc_result_t :=
  match handle_command_body env with
  | .ok r => r
  | .error e =>
    { handled := false, return_code := 1, boundary_log := some (boundaryLogLevel e) }

/-- PROGRAM_ID_CACHE_LIFE_TIME (seconds). -/
def PROGRAM_ID_CACHE_LIFE_TIME : Nat := 300

/-- file::file_info_t as used by get_program_id_cached: real path, size
and modification time of the executable. -/
structure file_info_t where
  path : String
  size : Nat
  modify_time : Nat
deriving DecidableEq

/-- Decimal rendering of a number by `std::ostringstream`. -/
def decStr (n : Nat) : String :=
  if n = 0 then "0" else String.mk ((Nat.digits 10 n).reverse.map Nat.digitChar)

/-- The program-ID cache key: digest of "path:size:mtime"
(program_wrapper.cpp lines 305-310). -/
def file_info_key (fi : file_info_t) : digest_t :=
  ((hasher_t.empty).update
    (fi.path ++ ":" ++ decStr fi.size ++ ":" ++ decStr fi.modify_time)).final

/-- Modelled from the spec: data_store_t (not under src/), a persistent
key/value store with per-item expiry times. -/
abbrev data_store_t := List (digest_t × String × Nat)

/-- Modelled from the spec: `get_item(key)` returns None if absent or
expired; an item is valid while `now` is before its expiry. -/
def data_store_t.get_item : data_store_t → digest_t → Nat → Option String
  | [], _, _ => none
  | (k, v, expiresAt) :: rest, key, now =>
    if k = key then (if now < expiresAt then some v else none)
    else data_store_t.get_item rest key now

/-- Modelled from the spec: `store_item(key, value, ttl)` upserts with
expiry `now + ttl` (the newest binding shadows older ones). -/
def data_store_t.store_item (s : data_store_t) (key : digest_t) (value : String)
    (expiresAt : Nat) : data_store_t :=
  (key, value, expiresAt) :: s

/-- External calls made by get_program_id_cached: the file-info query on
the executable and the (virtual) get_program_id hook, both fallible. -/
structure prgid_env_t where
  get_file_info : Except err_t file_info_t
  get_program_id : Except err_t String

/-- Outcome of one call to get_program_id_cached: the returned (or
escaping) value, the data store afterwards, and how many times
get_program_id was invoked. -/
structure prgid_result_t where
  value : Except err_t String
  store : data_store_t
  program_id_calls : Nat

/-- program_wrapper_t::get_program_id_cached (program_wrapper.cpp lines
302-331).  The try block computes the key, consults the store, and on a
miss queries get_program_id and stores the result with the 300 s TTL;
`catch (std::exception&)` falls back to a second, direct get_program_id
call outside the try. -/
def get_program_id_cached (e : prgid_env_t) (store : data_store_t) (now : Nat) :
    prgid_result_t :=
  match e.get_file_info with
  | .error ferr =>
    if ferr.isTyped then
      match e.get_program_id with
      | .ok v => ⟨.ok v, store, 1⟩
      | .error perr => ⟨.error perr, store, 1⟩
    else ⟨.error ferr, store, 0⟩
  | .ok fi =>
    let key := file_info_key fi
    match store.get_item key now with
    | some v => ⟨.ok v, store, 0⟩
    | none =>
      match e.get_program_id with
      | .ok pid =>
        ⟨.ok pid, store.store_item key pid (now + PROGRAM_ID_CACHE_LIFE_TIME), 1⟩
      | .error perr =>
        if perr.isTyped then
          match e.get_program_id with
          | .ok v => ⟨.ok v, store, 2⟩
          | .error perr2 => ⟨.error perr2, store, 2⟩
        else ⟨.error perr, store, 1⟩

/-- Does `pat` occur at the start of `s`?  (helper of the std::string::find
model). -/
def charsStartWith : List Char → List Char → Bool
  | [], _ => true
  | _ :: _, [] => false
  | p :: ps, c :: cs => p == c && charsStartWith ps cs

/-- Does `pat` occur anywhere in `s`?  Models
`std::string::find(pat) != std::string::npos`. -/
def charsFind (pat : List Char) : List Char → Bool
  | [] => charsStartWith pat []
  | c :: cs => charsStartWith pat (c :: cs) || charsFind pat cs

/-- `s.find(pat) != std::string::npos` on strings. -/
def str_find_contains (s pat : String) : Bool := charsFind pat.data s.data

/-- gcc_wrapper_t::can_handle_command (gcc_wrapper.cpp lines 62-66):
claims the command iff there is at least one argument and the first
contains "gcc" or "g++" anywhere. -/
def gcc_can_handle_command (args : List String) : Bool :=
  match args with
  | [] => false
  | a0 :: _ => str_find_contains a0 "gcc" || str_find_contains a0 "g++"

/-- Concatenated raw encodings of the contents of a list of files, given
a contents oracle; the stream produced by the HASH_EXTRA_FILES loop. -/
def encodeContents (cont : String → String) : List String → List hbyte_t
  | [] => []
  | f :: fs => encodeStr (cont f) ++ encodeContents cont fs

/-- Numeric value of a decimal digit character. -/
def charVal (c : Char) : Nat := c.toNat - 48

/-- Parse a decimal digit string back to a number (left inverse of
`decStr`, used to prove injectivity of the ostringstream rendering). -/
def decodeDec (s : String) : Nat := Nat.ofDigits 10 ((s.data.map charVal).reverse)

/-- An environment in which every external call succeeds trivially:
empty configuration, empty argument vector, no build files, empty file
contents, both lookups miss, and the tool exits with code 0. -/
def okEnv : env_t :=
  { cfg := {},
    resolve_args := .ok [],
    get_capabilities := .ok [],
    get_build_files := .ok [],
    file_read := fun _ => .ok "",
    get_program_id_cached_result := .ok "pid",
    get_relevant_arguments := .ok [],
    get_relevant_env_vars := .ok [],
    get_input_files := .ok [],
    resolve_path := fun p => p,
    lookup_direct := fun _ => .ok none,
    preprocess_source := .ok "",
    lookup := fun _ => .ok none,
    run_for_miss := .ok ⟨0, "", ""⟩,
    file_exists := fun _ => true,
    get_implicit_input_files := [] }

/-- The base hasher produced by step 4 in the okEnv family of
environments (no extra files, program id "pid", empty argument and
env-var lists). -/
def okH : hasher_t := ⟨encodeStr "pid"⟩

/-- Environment exercising the direct-mode block with one readable input
file and a direct-lookup miss. -/
def w1Env : env_t := { okEnv with get_input_files := .ok ["a.c"] }

/-- Capabilities with direct mode active. -/
def w1Caps : capabilities_t := { direct_mode := true }

/-- The direct-mode digest computed in `w1Env` from an empty base hasher
and empty argument list. -/
def w1D : digest_t := hbyte_t.sepByte :: (encodeStr "a.c" ++ [hbyte_t.sepByte])

/-- Environment whose resolve_args raises a typed error
(e.g. a bad response file). -/
def w2Env : env_t := { okEnv with resolve_args := .error (err_t.stdErr "bad response file") }

/-- Environment in which direct mode is enabled, the single input file
cannot be read (a std::runtime_error during input hashing), and the
primary lookup hits. -/
def cex6Env : env_t :=
  { okEnv with
    cfg := { direct_mode := true },
    get_capabilities := .ok ["direct_mode"],
    get_input_files := .ok ["a.c"],
    file_read := fun f => if f = "a.c" then .error (err_t.runtimeErr "missing input") else .ok "",
    lookup := fun _ => .ok (some 0) }

/-- Environment in which direct mode is enabled, input hashing succeeds,
lookup_direct raises a std::runtime_error, and the primary lookup hits. -/
def w6Env : env_t :=
  { okEnv with
    cfg := { direct_mode := true },
    get_capabilities := .ok ["direct_mode"],
    get_input_files := .ok ["a.c"],
    lookup_direct := fun _ => .error (err_t.runtimeErr "storage fault"),
    lookup := fun _ => .ok (some 0) }

/-- The direct-mode digest computed in `w6Env`. -/
def w6D : digest_t := encodeStr "pid" ++ hbyte_t.sepByte :: (encodeStr "a.c" ++ [hbyte_t.sepByte])

/-- Environment with terminate_on_miss configured and all lookups
missing. -/
def w7Env : env_t := { okEnv with cfg := { terminate_on_miss := true } }

/-- An expected-files table with a required file that exists and an
optional file that is missing after the tool run. -/
def w8Expected : List (String × expected_file_t) :=
  [("object", ⟨"a.o", true⟩), ("dep", ⟨"a.d", false⟩)]

/-- Environment reaching the insertion gate with `w8Expected` as the
expected-files table; only "a.o" exists on disk. -/
def w8Env : env_t :=
  { okEnv with
    get_build_files := .ok w8Expected,
    file_exists := fun p => p == "a.o" }

/-- A concrete executable identity for the program-ID cache theorems. -/
def wFi : file_info_t := ⟨"/usr/bin/gcc", 100, 5⟩

/-- Program-ID environment whose get_program_id hook raises a typed
error (e.g. the version query failed). -/
def cexPrgEnv : prgid_env_t := ⟨.ok wFi, .error (err_t.stdErr "version query failed")⟩

/-! ### Hasher stream lemmas -/

theorem hash_extra_files_loop_ok (env : env_t) (cont : String → String) :
    ∀ (fs : List String) (h : hasher_t),
      (∀ f ∈ fs, env.file_read f = .ok (cont f)) →
      hash_extra_files_loop env fs h = .ok ⟨h.bytes ++ encodeContents cont fs⟩
  | [], h, _ => by cases h; simp [hash_extra_files_loop, encodeContents]
  | f :: fs, h, hc => by
    have h1 : env.file_read f = .ok (cont f) := hc f (List.mem_cons_self f fs)
    simp only [hash_extra_files_loop, h1]
    rw [hash_extra_files_loop_ok env cont fs _
      (fun g hg => hc g (List.mem_cons_of_mem f hg))]
    simp [hasher_t.updateFromFileContents, encodeContents]

theorem hash_input_files_loop_bytes (env : env_t) :
    ∀ (fs : List String) (h h' : hasher_t),
      hash_input_files_loop env fs h = .ok h' →
      ∃ tail, h'.bytes = h.bytes ++ tail
  | [], h, h', hh => by
    simp only [hash_input_files_loop, Except.ok.injEq] at hh
    exact ⟨[], by simp [hh]⟩
  | f :: fs, h, h', hh => by
    simp only [hash_input_files_loop] at hh
    cases hr : env.file_read f with
    | error e => rw [hr] at hh; exact absurd hh (by simp)
    | ok c =>
      rw [hr] at hh
      obtain ⟨tail, ht⟩ := hash_input_files_loop_bytes env fs _ h' hh
      refine ⟨encodeStr (env.resolve_path f) ++ hbyte_t.sepByte ::
        (encodeStr c ++ tail), ?_⟩
      simp [ht, hasher_t.update, hasher_t.injectSeparator,
        hasher_t.updateFromFileContents]

theorem direct_attempt_digest_shape (env : env_t) (margs : List String)
    (caps : capabilities_t) (h : hasher_t) (d : digest_t) (lg : Bool) :
    direct_mode_attempt env margs caps h = .miss (some d) lg →
    ∃ tail, d = h.bytes ++ (hbyte_t.sepByte :: tail) := by
  unfold direct_mode_attempt
  intro hd
  cases hcap : caps.direct_mode with
  | false => rw [hcap] at hd; simp at hd
  | true =>
    simp only [hcap, if_true] at hd
    cases hin : env.get_input_files with
    | error e => simp only [hin] at hd; cases e <;> simp [err_t.isRuntime] at hd
    | ok files =>
      simp only [hin] at hd
      by_cases hlen : 0 < files.length
      · simp only [if_pos hlen] at hd
        cases hloop : hash_input_files_loop env files ((h.injectSeparator).updateList margs) with
        | error e => simp only [hloop] at hd; cases e <;> simp [err_t.isRuntime] at hd
        | ok dmh =>
          simp only [hloop] at hd
          obtain ⟨tail, ht⟩ := hash_input_files_loop_bytes env files _ dmh hloop
          have hbytes : dmh.final = h.bytes ++ hbyte_t.sepByte :: (encodeList margs ++ tail) := by
            simp [hasher_t.final, ht, hasher_t.injectSeparator, hasher_t.updateList]
          cases hld : env.lookup_direct dmh.final with
          | error e =>
            simp only [hld] at hd
            cases e <;> simp [err_t.isRuntime] at hd
            obtain ⟨hde, _⟩ := hd
            exact ⟨encodeList margs ++ tail, by rw [← hde]; exact hbytes⟩
          | ok orc =>
            simp only [hld] at hd
            cases orc with
            | some rc => simp at hd
            | none =>
              simp only [direct_outcome_t.miss.injEq, Option.some.injEq] at hd
              exact ⟨encodeList margs ++ tail, by rw [← hd.1]; exact hbytes⟩
      · simp only [if_neg hlen] at hd; simp at hd

/-- C1.  Domain separation: whenever the pipeline's direct-mode block
computes a direct digest from the shared base hasher H (and hence falls
through so that the preprocessor-mode hash is also computed from H), the
direct digest differs from the preprocessor-mode hash for every possible
preprocessor output, because the direct hasher is a clone of H with a
separator injected before any further input. -/
theorem direct_digest_ne_pp_hash (env : env_t) (margs : List String)
    (caps : capabilities_t) (h : hasher_t) (d : digest_t) (lg : Bool) (pp : String) :
    direct_mode_attempt env margs caps h = .miss (some d) lg →
    d ≠ pp_digest h pp := by
  intro hd heq
  obtain ⟨tail, ht⟩ := direct_attempt_digest_shape env margs caps h d lg hd
  rw [ht] at heq
  have hcut : hbyte_t.sepByte :: tail = encodeStr pp := by
    simpa [pp_digest, hasher_t.update, hasher_t.final] using heq
  rw [encodeStr] at hcut
  cases hppd : pp.data with
  | nil => rw [hppd] at hcut; simp at hcut
  | cons c cs => rw [hppd] at hcut; simp at hcut

/-- Witness for C1 at a concrete environment: the direct-mode block of
`w1Env` computes the digest `w1D`, which differs from the
preprocessor-mode hash. -/
theorem direct_digest_ne_pp_hash_witness :
    direct_mode_attempt w1Env [] w1Caps hasher_t.empty = .miss (some w1D) false ∧
    w1D ≠ pp_digest hasher_t.empty "x" :=
  ⟨rfl, direct_digest_ne_pp_hash w1Env [] w1Caps hasher_t.empty w1D false "x" rfl⟩

/-- C2.  Whenever the pipeline body raises, handle_command catches the
exception at its outer boundary, logs at DEBUG for typed
(std::exception) errors and at ERROR for unknown ones, and returns false
(unhandled); being a total function of the body's outcome, it never
propagates an exception. -/
theorem handle_command_catches_all (env : env_t) (e : err_t) :
    handle_command_body env = .error e →
    handle_command env =
      { handled := false, return_code := 1,
        boundary_log := some (boundaryLogLevel e) } ∧
    boundaryLogLevel e =
      (if e.isTyped then log_level_t.DEBUG else log_level_t.ERROR) := by
  intro hb
  constructor
  · unfold handle_command; rw [hb]
  · cases e <;> rfl

/-- Witness for C2: in `w2Env` resolve_args raises a typed error; the
pipeline returns unhandled with a DEBUG boundary log. -/
theorem handle_command_catches_all_witness :
    handle_command w2Env =
      { handled := false, return_code := 1,
        boundary_log := some log_level_t.DEBUG } :=
  (handle_command_catches_all w2Env (err_t.stdErr "bad response file") rfl).1

/-! ### Pipeline path characterizations -/

theorem handle_command_run_path (env : env_t) (margs cs : List String)
    (expected : List (String × expected_file_t)) (h : hasher_t)
    (dh : Option digest_t) (lg : Bool) (pp : String) (res : run_result_t)
    (h1 : env.resolve_args = .ok margs)
    (h2 : env.get_capabilities = .ok cs)
    (h3 : env.get_build_files = .ok expected)
    (h4 : base_hasher env = .ok h)
    (h5 : direct_mode_attempt env margs (capabilities_t.make env.cfg cs) h = .miss dh lg)
    (h6 : env.preprocess_source = .ok pp)
    (h7 : env.lookup (pp_digest h pp) = .ok none)
    (h8 : env.cfg.terminate_on_miss = false)
    (h9 : env.run_for_miss = .ok res) :
    handle_command env =
      { handled := true, return_code := res.return_code,
        effects :=
          if res.return_code == 0 && !env.cfg.read_only then
            { ran_for_miss := true,
              add_call := some (pp_digest h pp,
                make_cache_entry env.cfg (build_file_ids env expected) res,
                cache_add_stores env expected),
              add_direct_calls :=
                add_direct_list dh (pp_digest h pp) env.get_implicit_input_files }
          else { ran_for_miss := true },
        boundary_log := none } := by
  unfold handle_command handle_command_body
  simp only [h1, h2, h3, h4, h5, h6, h7, h8, h9]
  simp

theorem handle_command_hit_path (env : env_t) (margs cs : List String)
    (expected : List (String × expected_file_t)) (h : hasher_t)
    (dh : Option digest_t) (lg : Bool) (pp : String) (rc : Int)
    (h1 : env.resolve_args = .ok margs)
    (h2 : env.get_capabilities = .ok cs)
    (h3 : env.get_build_files = .ok expected)
    (h4 : base_hasher env = .ok h)
    (h5 : direct_mode_attempt env margs (capabilities_t.make env.cfg cs) h = .miss dh lg)
    (h6 : env.preprocess_source = .ok pp)
    (h7 : env.lookup (pp_digest h pp) = .ok (some rc)) :
    handle_command env =
      { handled := true, return_code := rc,
        effects := { add_direct_calls :=
          add_direct_list dh (pp_digest h pp) env.get_implicit_input_files },
        boundary_log := none } := by
  unfold handle_command handle_command_body
  simp only [h1, h2, h3, h4, h5, h6, h7]

/-- C7.  If the direct-mode attempt fell through (or was skipped), the
primary lookup misses, and terminate_on_miss is configured, then
handle_command sets return code 1 and returns handled without calling
run_for_miss and without any cache insertion (empty effects). -/
theorem terminate_on_miss_no_run_no_insert (env : env_t) (margs cs : List String)
    (expected : List (String × expected_file_t)) (h : hasher_t)
    (dh : Option digest_t) (lg : Bool) (pp : String)
    (h1 : env.resolve_args = .ok margs)
    (h2 : env.get_capabilities = .ok cs)
    (h3 : env.get_build_files = .ok expected)
    (h4 : base_hasher env = .ok h)
    (h5 : direct_mode_attempt env margs (capabilities_t.make env.cfg cs) h = .miss dh lg)
    (h6 : env.preprocess_source = .ok pp)
    (h7 : env.lookup (pp_digest h pp) = .ok none)
    (h8 : env.cfg.terminate_on_miss = true) :
    handle_command env =
      { handled := true, return_code := 1, effects := {}, boundary_log := none } := by
  unfold handle_command handle_command_body
  simp only [h1, h2, h3, h4, h5, h6, h7, h8]
  simp

/-- Witness for C7: in `w7Env` (terminate_on_miss configured, both
lookups missing) the pipeline returns handled with code 1 and performs
no tool run and no insertion. -/
theorem terminate_on_miss_no_run_no_insert_witness :
    handle_command w7Env =
      { handled := true, return_code := 1, effects := {}, boundary_log := none } :=
  terminate_on_miss_no_run_no_insert w7Env [] [] [] okH none false ""
    rfl rfl rfl rfl rfl rfl rfl rfl

/-- C3.  On the run path (cache miss followed by run_for_miss), the add
call is performed iff the tool exited with code 0 and the configuration
is not read_only, and an add_direct call is performed iff additionally
the direct digest is non-empty. -/
theorem insertion_iff_success_not_read_only (env : env_t) (margs cs : List String)
    (expected : List (String × expected_file_t)) (h : hasher_t)
    (dh : Option digest_t) (lg : Bool) (pp : String) (res : run_result_t)
    (h1 : env.resolve_args = .ok margs)
    (h2 : env.get_capabilities = .ok cs)
    (h3 : env.get_build_files = .ok expected)
    (h4 : base_hasher env = .ok h)
    (h5 : direct_mode_attempt env margs (capabilities_t.make env.cfg cs) h = .miss dh lg)
    (h6 : env.preprocess_source = .ok pp)
    (h7 : env.lookup (pp_digest h pp) = .ok none)
    (h8 : env.cfg.terminate_on_miss = false)
    (h9 : env.run_for_miss = .ok res) :
    (((handle_command env).effects.add_call).isSome ↔
      (res.return_code = 0 ∧ env.cfg.read_only = false)) ∧
    ((handle_command env).effects.add_direct_calls ≠ [] ↔
      (res.return_code = 0 ∧ env.cfg.read_only = false ∧ dh.isSome = true)) := by
  rw [handle_command_run_path env margs cs expected h dh lg pp res
    h1 h2 h3 h4 h5 h6 h7 h8 h9]
  by_cases hg : res.return_code = 0 ∧ env.cfg.read_only = false
  · obtain ⟨hrc, hro⟩ := hg
    simp only [hrc, hro]
    cases dh <;> simp [add_direct_list]
  · have hgb : (res.return_code == 0 && !env.cfg.read_only) = false := by
      rcases Decidable.not_and_iff_or_not.mp hg with hrc | hro
      · simp [beq_eq_false_iff_ne, hrc]
      · have : env.cfg.read_only = true := by
          cases hco : env.cfg.read_only
          · exact absurd hco hro
          · rfl
        simp [this]
    simp only [hgb]
    simp [hg]
    intro hrc hro
    exact absurd ⟨hrc, hro⟩ hg

/-- Witness for C3 at `okEnv`: the tool exits 0, the configuration is
not read_only, and an add call is performed. -/
theorem insertion_iff_success_not_read_only_witness :
    ((handle_command okEnv).effects.add_call).isSome ↔
      ((0 : Int) = 0 ∧ okEnv.cfg.read_only = false) :=
  (insertion_iff_success_not_read_only okEnv [] [] [] okH none false "" ⟨0, "", ""⟩
    rfl rfl rfl rfl rfl rfl rfl rfl rfl).1

/-- C8.  On the insertion path the add call receives exactly the
file-ID list in which a role id is kept iff its file is required or
exists on disk; the spec-modelled ingestion stores the entry iff every
required expected file exists (a missing required file prevents the
insertion, a missing optional file is merely omitted from file_ids). -/
theorem required_files_gate_insertion (env : env_t) (margs cs : List String)
    (expected : List (String × expected_file_t)) (h : hasher_t)
    (dh : Option digest_t) (lg : Bool) (pp : String) (res : run_result_t)
    (h1 : env.resolve_args = .ok margs)
    (h2 : env.get_capabilities = .ok cs)
    (h3 : env.get_build_files = .ok expected)
    (h4 : base_hasher env = .ok h)
    (h5 : direct_mode_attempt env margs (capabilities_t.make env.cfg cs) h = .miss dh lg)
    (h6 : env.preprocess_source = .ok pp)
    (h7 : env.lookup (pp_digest h pp) = .ok none)
    (h8 : env.cfg.terminate_on_miss = false)
    (h9 : env.run_for_miss = .ok res)
    (hrc : res.return_code = 0)
    (hro : env.cfg.read_only = false) :
    (handle_command env).effects.add_call =
      some (pp_digest h pp,
        make_cache_entry env.cfg (build_file_ids env expected) res,
        cache_add_stores env expected) ∧
    (∀ s, s ∈ build_file_ids env expected ↔
      ∃ p, p ∈ expected ∧ p.1 = s ∧
        (p.2.required = true ∨ env.file_exists p.2.path = true)) ∧
    (cache_add_stores env expected = true ↔
      ∀ p ∈ expected, p.2.required = true → env.file_exists p.2.path = true) := by
  refine ⟨?_, ?_, ?_⟩
  · rw [handle_command_run_path env margs cs expected h dh lg pp res
      h1 h2 h3 h4 h5 h6 h7 h8 h9]
    simp [hrc, hro]
  · intro s
    unfold build_file_ids
    simp only [List.mem_map, List.mem_filter, Bool.or_eq_true]
    constructor
    · rintro ⟨p, ⟨hp, hcond⟩, hs⟩
      exact ⟨p, hp, hs, hcond⟩
    · rintro ⟨p, hp, hs, hcond⟩
      exact ⟨p, ⟨hp, hcond⟩, hs⟩
  · unfold cache_add_stores
    simp only [List.all_eq_true, Bool.or_eq_true, Bool.not_eq_true']
    constructor
    · intro ha p hp hreq
      rcases ha p hp with hf | he
      · rw [hreq] at hf; exact absurd hf (by simp)
      · exact he
    · intro ha p hp
      cases hq : p.2.required
      · exact Or.inl rfl
      · exact Or.inr (ha p hp hq)

/-- Witness for C8 at `w8Env`: the add call carries the file-ID list
built from `w8Expected` and the ingestion-stored flag. -/
theorem required_files_gate_insertion_witness :
    (handle_command w8Env).effects.add_call =
      some (pp_digest okH "",
        make_cache_entry w8Env.cfg (build_file_ids w8Env w8Expected) ⟨0, "", ""⟩,
        cache_add_stores w8Env w8Expected) :=
  (required_files_gate_insertion w8Env [] [] w8Expected okH none false "" ⟨0, "", ""⟩
    rfl rfl rfl rfl rfl rfl rfl rfl rfl rfl rfl).1

/-! ### Direct-mode failure handling (C6) -/

/-- Counterexample to C6 as stated: in `cex6Env` direct mode is active
and a failure (an unreadable input file, raised as std::runtime_error
by update_from_file) occurs during the direct-mode attempt; the
pipeline falls through and the later primary lookup hits, yet no
direct-mode entry is installed, because `direct_hash` is assigned only
after the input-hashing loop and hence is still empty — refuting
"direct_digest is retained non-empty so that a later primary-lookup hit
installs a direct-mode entry via add_direct". -/
theorem direct_mode_failure_retention_cex :
    (capabilities_t.make cex6Env.cfg ["direct_mode"]).direct_mode = true ∧
    cex6Env.get_input_files = .ok ["a.c"] ∧
    cex6Env.file_read "a.c" = .error (err_t.runtimeErr "missing input") ∧
    (handle_command cex6Env).handled = true ∧
    (handle_command cex6Env).effects.add_direct_calls = [] :=
  ⟨rfl, rfl, rfl, rfl, rfl⟩

/-- C6 (amended).  A std::runtime_error during the direct-mode attempt
is caught and logged and control falls through to preprocessor mode;
however `direct_digest` survives non-empty only when the failure occurs
in lookup_direct, after the digest was finalized (a failure during
input-file hashing leaves it empty); in the retained case a later
primary-lookup hit, or a successful insertion after run_for_miss,
installs the direct-mode entry via add_direct. -/
theorem direct_mode_failure_fallthrough_amended :
    (∀ (env : env_t) (margs : List String) (caps : capabilities_t) (h : hasher_t)
        (files : List String) (e : err_t),
      caps.direct_mode = true →
      env.get_input_files = .ok files →
      0 < files.length →
      hash_input_files_loop env files ((h.injectSeparator).updateList margs) = .error e →
      e.isRuntime = true →
      direct_mode_attempt env margs caps h = .miss none true) ∧
    (∀ (env : env_t) (margs : List String) (caps : capabilities_t) (h : hasher_t)
        (files : List String) (dmh : hasher_t) (e : err_t),
      caps.direct_mode = true →
      env.get_input_files = .ok files →
      0 < files.length →
      hash_input_files_loop env files ((h.injectSeparator).updateList margs) = .ok dmh →
      env.lookup_direct dmh.final = .error e →
      e.isRuntime = true →
      direct_mode_attempt env margs caps h = .miss (some dmh.final) true) ∧
    (∀ (env : env_t) (margs cs : List String)
        (expected : List (String × expected_file_t)) (h : hasher_t)
        (d : digest_t) (lg : Bool) (pp : String) (rc : Int),
      env.resolve_args = .ok margs →
      env.get_capabilities = .ok cs →
      env.get_build_files = .ok expected →
      base_hasher env = .ok h →
      direct_mode_attempt env margs (capabilities_t.make env.cfg cs) h = .miss (some d) lg →
      env.preprocess_source = .ok pp →
      env.lookup (pp_digest h pp) = .ok (some rc) →
      handle_command env =
        { handled := true, return_code := rc,
          effects := { add_direct_calls :=
            [(d, pp_digest h pp, env.get_implicit_input_files)] },
          boundary_log := none }) ∧
    (∀ (env : env_t) (margs cs : List String)
        (expected : List (String × expected_file_t)) (h : hasher_t)
        (d : digest_t) (lg : Bool) (pp : String) (res : run_result_t),
      env.resolve_args = .ok margs →
      env.get_capabilities = .ok cs →
      env.get_build_files = .ok expected →
      base_hasher env = .ok h →
      direct_mode_attempt env margs (capabilities_t.make env.cfg cs) h = .miss (some d) lg →
      env.preprocess_source = .ok pp →
      env.lookup (pp_digest h pp) = .ok none →
      env.cfg.terminate_on_miss = false →
      env.run_for_miss = .ok res →
      res.return_code = 0 →
      env.cfg.read_only = false →
      handle_command env =
        { handled := true, return_code := res.return_code,
          effects :=
            { ran_for_miss := true,
              add_call := some (pp_digest h pp,
                make_cache_entry env.cfg (build_file_ids env expected) res,
                cache_add_stores env expected),
              add_direct_calls :=
                [(d, pp_digest h pp, env.get_implicit_input_files)] },
          boundary_log := none }) := by
  refine ⟨?_, ?_, ?_, ?_⟩
  · intro env margs caps h files e hcap hin hlen hloop he
    unfold direct_mode_attempt
    simp only [hcap, if_true, hin, if_pos hlen, hloop, he, if_true]
  · intro env margs caps h files dmh e hcap hin hlen hloop hld he
    unfold direct_mode_attempt
    simp only [hcap, if_true, hin, if_pos hlen, hloop, hld, he, if_true]
  · intro env margs cs expected h d lg pp rc h1 h2 h3 h4 h5 h6 h7
    rw [handle_command_hit_path env margs cs expected h (some d) lg pp rc
      h1 h2 h3 h4 h5 h6 h7]
    simp [add_direct_list]
  · intro env margs cs expected h d lg pp res h1 h2 h3 h4 h5 h6 h7 h8 h9 hrc hro
    rw [handle_command_run_path env margs cs expected h (some d) lg pp res
      h1 h2 h3 h4 h5 h6 h7 h8 h9]
    simp [hrc, hro, add_direct_list]

/-- Witness for the amended C6 at `w6Env`: input hashing succeeds, the
direct lookup raises a std::runtime_error, the digest `w6D` is retained,
and the direct entry is installed both on a primary-lookup hit and, in
the miss variant of the environment, on the successful insertion after
run_for_miss. -/
theorem direct_mode_failure_fallthrough_amended_witness :
    (handle_command w6Env =
      { handled := true, return_code := 0,
        effects := { add_direct_calls := [(w6D, pp_digest okH "", [])] },
        boundary_log := none }) ∧
    (handle_command { w6Env with lookup := fun _ => .ok none } =
      { handled := true, return_code := 0,
        effects :=
          { ran_for_miss := true,
            add_call := some (pp_digest okH "",
              make_cache_entry { direct_mode := true } [] ⟨0, "", ""⟩, true),
            add_direct_calls := [(w6D, pp_digest okH "", [])] },
        boundary_log := none }) :=
  ⟨direct_mode_failure_fallthrough_amended.2.2.1 w6Env [] ["direct_mode"] [] okH w6D true "" 0
    rfl rfl rfl rfl rfl rfl rfl,
   direct_mode_failure_fallthrough_amended.2.2.2 { w6Env with lookup := fun _ => .ok none }
    [] ["direct_mode"] [] okH w6D true "" ⟨0, "", ""⟩
    rfl rfl rfl rfl rfl rfl rfl rfl rfl rfl rfl⟩

/-! ### Capability masking (C4) -/

theorem capStep_create (cfg : config_t) (c : capabilities_t) (s : String) :
    (capStep cfg c s).create_target_dirs =
      (c.create_target_dirs || (s == "create_target_dirs")) := by
  unfold capStep
  split
  · next hs => simp [hs]
  · split
    · next hs =>
      have : s ≠ "create_target_dirs" := by
        intro hc; rw [hc] at hs; exact absurd hs.2 (by decide)
      simp [beq_eq_false_iff_ne.mpr this]
    · split
      · next hs =>
        have : s ≠ "create_target_dirs" := by rw [hs]; decide
        simp [beq_eq_false_iff_ne.mpr this]
      · split
        · next hs =>
          have : s ≠ "create_target_dirs" := by rw [hs]; decide
          simp [beq_eq_false_iff_ne.mpr this]
        · next hs _ _ _ => simp [beq_eq_false_iff_ne.mpr hs]

theorem capStep_dm (cfg : config_t) (c : capabilities_t) (s : String) :
    (capStep cfg c s).direct_mode =
      (c.direct_mode || (s == "force_direct_mode") ||
        ((s == "direct_mode") && cfg.direct_mode)) := by
  unfold capStep
  split
  · next hs =>
    have h1 : s ≠ "force_direct_mode" := by rw [hs]; decide
    have h2 : s ≠ "direct_mode" := by rw [hs]; decide
    simp [beq_eq_false_iff_ne.mpr h1, beq_eq_false_iff_ne.mpr h2]
  · split
    · next hs =>
      obtain ⟨hdm, hs⟩ := hs
      have h1 : s ≠ "force_direct_mode" := by rw [hs]; decide
      simp [beq_eq_false_iff_ne.mpr h1, hs, hdm]
    · next hno =>
      split
      · next hs =>
        have h2 : s ≠ "direct_mode" := by rw [hs]; decide
        simp [hs, beq_eq_false_iff_ne.mpr h2]
      · next hs2 =>
        split
        · next hs =>
          have h1 : s ≠ "force_direct_mode" := by rw [hs]; decide
          have h2 : s ≠ "direct_mode" := by rw [hs]; decide
          simp [beq_eq_false_iff_ne.mpr h1, beq_eq_false_iff_ne.mpr h2]
        · next hs4 =>
          have h1 : (s == "force_direct_mode") = false := beq_eq_false_iff_ne.mpr hs2
          by_cases h2 : s = "direct_mode"
          · have hdm : c.direct_mode = true := by
              cases hc : c.direct_mode
              · exact absurd ⟨hc, h2⟩ hno
              · rfl
            simp [hdm]
          · simp [h1, beq_eq_false_iff_ne.mpr h2]

theorem capStep_hl (cfg : config_t) (c : capabilities_t) (s : String) :
    (capStep cfg c s).hard_links =
      (if s == "hard_links" then cfg.hard_links else c.hard_links) := by
  unfold capStep
  split
  · next hs =>
    have : s ≠ "hard_links" := by rw [hs]; decide
    simp [beq_eq_false_iff_ne.mpr this]
  · split
    · next hs =>
      have : s ≠ "hard_links" := by rw [hs.2]; decide
      simp [beq_eq_false_iff_ne.mpr this]
    · split
      · next hs =>
        have : s ≠ "hard_links" := by rw [hs]; decide
        simp [beq_eq_false_iff_ne.mpr this]
      · split
        · next hs => simp [hs]
        · next hs => simp [beq_eq_false_iff_ne.mpr hs]

theorem capLoop_create (cfg : config_t) :
    ∀ (l : List String) (c : capabilities_t),
      (capLoop cfg l c).create_target_dirs = true ↔
        (c.create_target_dirs = true ∨ "create_target_dirs" ∈ l)
  | [], c => by simp [capLoop]
  | s :: rest, c => by
    rw [capLoop, capLoop_create cfg rest (capStep cfg c s)]
    rw [capStep_create]
    simp only [Bool.or_eq_true, beq_iff_eq, List.mem_cons]
    aesop

theorem capLoop_dm (cfg : config_t) :
    ∀ (l : List String) (c : capabilities_t),
      (capLoop cfg l c).direct_mode = true ↔
        (c.direct_mode = true ∨ "force_direct_mode" ∈ l ∨
          ("direct_mode" ∈ l ∧ cfg.direct_mode = true))
  | [], c => by simp [capLoop]
  | s :: rest, c => by
    rw [capLoop, capLoop_dm cfg rest (capStep cfg c s)]
    rw [capStep_dm]
    simp only [Bool.or_eq_true, Bool.and_eq_true, beq_iff_eq, List.mem_cons]
    aesop

theorem capLoop_hl (cfg : config_t) :
    ∀ (l : List String) (c : capabilities_t),
      (capLoop cfg l c).hard_links = true ↔
        (("hard_links" ∈ l ∧ cfg.hard_links = true) ∨
          ("hard_links" ∉ l ∧ c.hard_links = true))
  | [], c => by simp [capLoop]
  | s :: rest, c => by
    rw [capLoop, capLoop_hl cfg rest (capStep cfg c s)]
    rw [capStep_hl]
    by_cases hs : s = "hard_links"
    · rw [hs]
      simp only [List.mem_cons]
      simp
      tauto
    · have hb : (s == "hard_links") = false := beq_eq_false_iff_ne.mpr hs
      rw [hb]
      simp only [List.mem_cons]
      have hns : ¬ ("hard_links" = s) := fun hc => hs hc.symm
      simp [hns]

/-- C4.  Capability masking: a capability name absent from the list is
never active (each flag is true only with its name present), and the
direct_mode flag ends up true iff the list contains "force_direct_mode",
or contains "direct_mode" while the configuration enables direct mode;
with direct mode disabled in the configuration, the direct-mode
capability is active iff "force_direct_mode" was published. -/
theorem capability_masking (cfg : config_t) (l : List String) :
    ((capabilities_t.make cfg l).direct_mode = true ↔
      ("force_direct_mode" ∈ l ∨ ("direct_mode" ∈ l ∧ cfg.direct_mode = true))) ∧
    ((capabilities_t.make cfg l).create_target_dirs = true ↔ "create_target_dirs" ∈ l) ∧
    ((capabilities_t.make cfg l).hard_links = true ↔
      ("hard_links" ∈ l ∧ cfg.hard_links = true)) := by
  unfold capabilities_t.make
  refine ⟨?_, ?_, ?_⟩
  · rw [capLoop_dm]; simp
  · rw [capLoop_create]; simp
  · rw [capLoop_hl]; simp

/-! ### Base hasher absorption order (C5) -/

/-- C5.  The base hasher absorbs, in this exact order: the contents of
each hash_extra_files entry (in list order), the cached program id, the
relevant arguments, and the relevant environment variables framed as
key=value strings sorted by key; the preprocessor-mode hash finalizes
this state after additionally absorbing the preprocessor output. -/
theorem base_hasher_absorption_order (env : env_t) (cont : String → String)
    (pid : String) (ra : List String) (ev : List (String × String))
    (hfiles : ∀ f ∈ env.cfg.hash_extra_files, env.file_read f = .ok (cont f))
    (hpid : env.get_program_id_cached_result = .ok pid)
    (hra : env.get_relevant_arguments = .ok ra)
    (hev : env.get_relevant_env_vars = .ok ev) :
    base_hasher env = .ok ⟨encodeContents cont env.cfg.hash_extra_files ++
      encodeStr pid ++ encodeList ra ++ encodeList (frameEnvVars ev)⟩ ∧
    (∀ pp : String,
      pp_digest ⟨encodeContents cont env.cfg.hash_extra_files ++
        encodeStr pid ++ encodeList ra ++ encodeList (frameEnvVars ev)⟩ pp =
      encodeContents cont env.cfg.hash_extra_files ++
        encodeStr pid ++ encodeList ra ++ encodeList (frameEnvVars ev) ++
        encodeStr pp) := by
  constructor
  · unfold base_hasher
    rw [hash_extra_files_loop_ok env cont env.cfg.hash_extra_files hasher_t.empty hfiles]
    simp only [hpid, hra, hev]
    simp [hasher_t.empty, hasher_t.update, hasher_t.updateList, hasher_t.updateEnvMap]
  · intro pp
    simp [pp_digest, hasher_t.update, hasher_t.final]

/-- Witness for C5 at `okEnv` (no extra files, program id "pid", empty
argument and env-var lists). -/
theorem base_hasher_absorption_order_witness :
    base_hasher okEnv = .ok ⟨encodeContents (fun _ => "") okEnv.cfg.hash_extra_files ++
      encodeStr "pid" ++ encodeList [] ++ encodeList (frameEnvVars [])⟩ :=
  (base_hasher_absorption_order okEnv (fun _ => "") "pid" [] []
    (by simp [okEnv]) rfl rfl rfl).1

/-! ### Program-ID cache (C9) -/

theorem charVal_digitChar : ∀ d, d < 10 → charVal (Nat.digitChar d) = d := by decide

theorem map_charVal_digitChar :
    ∀ (l : List Nat), (∀ d ∈ l, d < 10) → (l.map Nat.digitChar).map charVal = l
  | [], _ => rfl
  | d :: rest, hl => by
    simp only [List.map_cons]
    rw [map_charVal_digitChar rest (fun x hx => hl x (List.mem_cons_of_mem d hx)),
      charVal_digitChar d (hl d (List.mem_cons_self d rest))]

theorem decodeDec_decStr (n : Nat) : decodeDec (decStr n) = n := by
  unfold decStr
  by_cases h : n = 0
  · rw [if_pos h, h]; rfl
  · rw [if_neg h]
    unfold decodeDec
    have hdata : (String.mk ((Nat.digits 10 n).reverse.map Nat.digitChar)).data
        = (Nat.digits 10 n).reverse.map Nat.digitChar := rfl
    rw [hdata]
    rw [map_charVal_digitChar _
      (fun d hd => Nat.digits_lt_base (by norm_num) (List.mem_reverse.mp hd))]
    rw [List.reverse_reverse, Nat.ofDigits_digits]

theorem decStr_injective (m n : Nat) (h : decStr m = decStr n) : m = n := by
  rw [← decodeDec_decStr m, ← decodeDec_decStr n, h]

theorem string_append_cancel_left (p a b : String) (h : p ++ a = p ++ b) : a = b := by
  apply String.ext
  have hd := congrArg String.data h
  rw [String.data_append, String.data_append] at hd
  exact List.append_cancel_left hd

theorem encodeStr_injective (s t : String) (h : encodeStr s = encodeStr t) : s = t := by
  apply String.ext
  unfold encodeStr at h
  have hraw : Function.Injective hbyte_t.raw := by
    intro a b hab; injection hab
  exact List.map_injective_iff.mpr hraw h

theorem prgid_ok_cases (fi : file_info_t) (pid : String) (store : data_store_t)
    (now : Nat) :
    get_program_id_cached ⟨.ok fi, .ok pid⟩ store now =
      (match store.get_item (file_info_key fi) now with
        | some v => ⟨.ok v, store, 0⟩
        | none =>
          ⟨.ok pid, store.store_item (file_info_key fi) pid
            (now + PROGRAM_ID_CACHE_LIFE_TIME), 1⟩) := rfl

/-- Counterexample to C9 as stated: with no valid item in the store and
a get_program_id hook that raises a typed error, get_program_id_cached
invokes get_program_id twice (once in the try block and once in the
fallback after the catch) and stores nothing — refuting "otherwise it
calls get_program_id exactly once and stores the result with a
300-second TTL". -/
theorem program_id_cached_double_call_cex :
    data_store_t.get_item [] (file_info_key wFi) 0 = none ∧
    (get_program_id_cached cexPrgEnv [] 0).program_id_calls = 2 ∧
    (get_program_id_cached cexPrgEnv [] 0).store = [] :=
  ⟨rfl, rfl, rfl⟩

/-- C9 (amended).  get_program_id_cached keys the program-ID store by a
digest of the executable's real path, size and modification time; a
valid (unexpired) item is returned without calling get_program_id; on a
store miss, when get_program_id succeeds it is called exactly once and
the result is stored with the 300-second TTL (when it fails inside the
try block, a second fallback call is made and nothing is stored);
consequently two runs within the TTL on an unchanged executable with a
succeeding get_program_id call it at most once in total, and a changed
modification time yields a different key, invalidating the cached id. -/
theorem program_id_cached_amended :
    (∀ (g : Except err_t String) (fi : file_info_t) (store : data_store_t)
        (now : Nat) (v : String),
      store.get_item (file_info_key fi) now = some v →
      get_program_id_cached ⟨.ok fi, g⟩ store now = ⟨.ok v, store, 0⟩) ∧
    (∀ (fi : file_info_t) (pid : String) (store : data_store_t) (now : Nat),
      store.get_item (file_info_key fi) now = none →
      get_program_id_cached ⟨.ok fi, .ok pid⟩ store now =
        ⟨.ok pid, store.store_item (file_info_key fi) pid
          (now + PROGRAM_ID_CACHE_LIFE_TIME), 1⟩) ∧
    (∀ (fi : file_info_t) (pid : String) (store : data_store_t) (t0 t1 : Nat),
      t1 < t0 + PROGRAM_ID_CACHE_LIFE_TIME →
      (get_program_id_cached ⟨.ok fi, .ok pid⟩ store t0).program_id_calls +
        (get_program_id_cached ⟨.ok fi, .ok pid⟩
          (get_program_id_cached ⟨.ok fi, .ok pid⟩ store t0).store t1).program_id_calls
        ≤ 1) ∧
    (∀ fi fi' : file_info_t, fi.path = fi'.path → fi.size = fi'.size →
      fi.modify_time ≠ fi'.modify_time → file_info_key fi ≠ file_info_key fi') := by
  refine ⟨?_, ?_, ?_, ?_⟩
  · intro g fi store now v hi
    unfold get_program_id_cached
    simp only [hi]
  · intro fi pid store now hi
    rw [prgid_ok_cases, hi]
  · intro fi pid store t0 t1 ht
    cases hi0 : store.get_item (file_info_key fi) t0 with
    | some v =>
      rw [prgid_ok_cases, hi0]
      cases hi1 : store.get_item (file_info_key fi) t1 with
      | some w => rw [prgid_ok_cases, hi1]; simp
      | none => rw [prgid_ok_cases, hi1]; simp
    | none =>
      rw [prgid_ok_cases, hi0]
      have hget : data_store_t.get_item
          (store.store_item (file_info_key fi) pid (t0 + PROGRAM_ID_CACHE_LIFE_TIME))
          (file_info_key fi) t1 = some pid := by
        unfold data_store_t.store_item data_store_t.get_item
        rw [if_pos rfl, if_pos ht]
      rw [prgid_ok_cases, hget]
      simp
  · intro fi fi' hp hs hm hk
    have hS : fi.path ++ ":" ++ decStr fi.size ++ ":" ++ decStr fi.modify_time =
        fi'.path ++ ":" ++ decStr fi'.size ++ ":" ++ decStr fi'.modify_time := by
      apply encodeStr_injective
      simpa [file_info_key, hasher_t.empty, hasher_t.update, hasher_t.final] using hk
    rw [hp, hs] at hS
    exact hm (decStr_injective _ _ (string_append_cancel_left _ _ _ hS))

/-- Witness for the amended C9: two runs at times 0 and 10 on the same
executable identity call get_program_id at most once in total. -/
theorem program_id_cached_amended_witness :
    (get_program_id_cached ⟨.ok wFi, .ok "gccpid"⟩ [] 0).program_id_calls +
      (get_program_id_cached ⟨.ok wFi, .ok "gccpid"⟩
        (get_program_id_cached ⟨.ok wFi, .ok "gccpid"⟩ [] 0).store 10).program_id_calls
      ≤ 1 :=
  program_id_cached_amended.2.2.1 wFi "gccpid" [] 0 10 (by decide)

/-! ### gcc wrapper command claiming (C10) -/

theorem charsStartWith_iff :
    ∀ (pat s : List Char), charsStartWith pat s = true ↔ ∃ r, s = pat ++ r
  | [], s => by simp [charsStartWith]
  | p :: ps, [] => by simp [charsStartWith]
  | p :: ps, c :: cs => by
    rw [charsStartWith]
    simp only [Bool.and_eq_true, beq_iff_eq]
    rw [charsStartWith_iff ps cs]
    constructor
    · rintro ⟨hpc, r, hr⟩
      exact ⟨r, by rw [List.cons_append, hpc, hr]⟩
    · rintro ⟨r, hr⟩
      rw [List.cons_append] at hr
      injection hr with h1 h2
      exact ⟨h1.symm, r, h2⟩

theorem charsFind_iff :
    ∀ (pat s : List Char), charsFind pat s = true ↔ ∃ l r, s = l ++ pat ++ r
  | pat, [] => by
    rw [charsFind, charsStartWith_iff]
    constructor
    · rintro ⟨r, hr⟩
      exact ⟨[], r, by simpa using hr⟩
    · rintro ⟨l, r, hr⟩
      rw [List.append_assoc] at hr
      rcases List.append_eq_nil.mp hr.symm with ⟨hl, hpr⟩
      rcases List.append_eq_nil.mp hpr with ⟨hp, hrr⟩
      exact ⟨r, by rw [hp]; simpa using hr.symm ▸ (by simp [hl, hp, hrr])⟩
  | pat, c :: cs => by
    rw [charsFind]
    simp only [Bool.or_eq_true]
    rw [charsStartWith_iff, charsFind_iff pat cs]
    constructor
    · rintro (⟨r, hr⟩ | ⟨l, r, hr⟩)
      · exact ⟨[], r, by simpa using hr⟩
      · exact ⟨c :: l, r, by simp [hr]⟩
    · rintro ⟨l, r, hr⟩
      cases l with
      | nil => exact Or.inl ⟨r, by simpa using hr⟩
      | cons x xs =>
        right
        simp only [List.cons_append, List.append_assoc] at hr
        injection hr with h1 h2
        exact ⟨xs, r, by simp [h2]⟩

/-- C10.  gcc_wrapper_t::can_handle_command returns true iff the
argument vector is non-empty and its first element contains "gcc" or
"g++" as a substring anywhere; in particular it claims
"/opt/gcc-tools/ld". -/
theorem gcc_can_handle_iff_substring :
    (∀ args : List String, gcc_can_handle_command args = true ↔
      (∃ a0 rest, args = a0 :: rest ∧
        ((∃ l r, a0.data = l ++ "gcc".data ++ r) ∨
         (∃ l r, a0.data = l ++ "g++".data ++ r)))) ∧
    gcc_can_handle_command ["/opt/gcc-tools/ld"] = true := by
  constructor
  · intro args
    cases args with
    | nil => simp [gcc_can_handle_command]
    | cons a0 rest =>
      simp only [gcc_can_handle_command, Bool.or_eq_true, str_find_contains,
        charsFind_iff]
      constructor
      · intro hc
        exact ⟨a0, rest, rfl, hc⟩
      · rintro ⟨a0', rest', heq, hc⟩
        injection heq with h1 h2
        rw [h1]
        exact hc
  · decide
